import Mathlib

/-!
Verification of the MFRC522 RFID driver (MakeCode / Calliope Mini V3).

The driver is embedded as pure state-passing functions. All register traffic
goes through the SPI primitives `digitalWritePin`, `spiWrite`, `spiRead`,
which talk to an abstract chip model (`Chip`): the chip reacts to bytes
written on the bus and produces the bytes returned by reads. Two chip models
are used:
  - `oracleChip`: an oracle that answers the n-th read of a given frame byte
    with an arbitrary (byte-sized) response, modelling a real MFRC522 whose
    register reads are externally determined;
  - `regFileChip`: a register file decoding the SPI frames, where reads
    return the last written value, as required by the algebraic claims.
Every event on the bus is also recorded in an explicit trace.
-/

/-- Events observable on the bus and control pins during a run. -/
inductive Ev where
  | pin (p v : Nat)
  | mosi (b : Nat)
  | miso (b : Nat)
  | wait (ms : Nat)
deriving DecidableEq, Repr

/-- A chip connected to the SPI bus: it reacts to chip-select transitions,
to bytes transmitted by the host, and produces the byte seen on a read. -/
structure Chip (σ : Type) where
  onCS : σ → Nat → σ
  onWrite : σ → Nat → σ
  onRead : σ → Nat × σ

/-- The run state: the chip-side state together with the recorded bus trace. -/
structure St (σ : Type) where
  dev : σ
  trace : List Ev

/-- Chip-select pin (NSS, pin P3 in the source wiring table). -/
def NSS : Nat := 3

def CommandReg : Nat := 0x01
def ComIrqReg : Nat := 0x04
def FIFODataReg : Nat := 0x09
def FIFOLevelReg : Nat := 0x0A
def BitFramingReg : Nat := 0x0D
def TxControlReg : Nat := 0x14
def PCD_SOFTRESET : Nat := 0x0F
def PCD_TRANSCEIVE : Nat := 0x0C
def PICC_REQIDL : Nat := 0x26
def PICC_ANTICOLL : Nat := 0x93

variable {σ : Type}

/-- pins.digitalWritePin: only the chip-select pin is seen by the chip. -/
def digitalWritePin (c : Chip σ) (p v : Nat) (s : St σ) : St σ :=
  ⟨if p = NSS then c.onCS s.dev v else s.dev, s.trace ++ [Ev.pin p v]⟩

/-- pins.spiWrite: transmit one byte to the chip. -/
def spiWrite (c : Chip σ) (b : Nat) (s : St σ) : St σ :=
  ⟨c.onWrite s.dev b, s.trace ++ [Ev.mosi b]⟩

/-- pins.spiRead: receive one byte from the chip (the argument byte sent on
MOSI during the read is ignored by the chip models). -/
def spiRead (c : Chip σ) (_x : Nat) (s : St σ) : Nat × St σ :=
  let r := c.onRead s.dev
  (r.1, ⟨r.2, s.trace ++ [Ev.miso r.1]⟩)

/-- basic.pause: a delay, recorded in the trace. -/
def pause (n : Nat) (s : St σ) : St σ := ⟨s.dev, s.trace ++ [Ev.wait n]⟩

/-- JavaScript bitwise OR on 32-bit operands (operands here are nonnegative). -/
def jsOr (a b : Nat) : Nat := a % 2 ^ 32 ||| b % 2 ^ 32

/-- JavaScript bitwise AND on 32-bit operands (operands here are nonnegative). -/
def jsAnd (a b : Nat) : Nat := a % 2 ^ 32 &&& b % 2 ^ 32

/-- The 32-bit pattern of the JavaScript bitwise NOT of a nonnegative value. -/
def jsNot32 (a : Nat) : Nat := (2 ^ 32 - 1) ^^^ a % 2 ^ 32

/-- writeReg from the source: frame byte (addr << 1) & 0x7E, then the value,
bracketed by chip-select low and high. -/
def writeReg (c : Chip σ) (addr val : Nat) (s : St σ) : St σ :=
  let s1 := digitalWritePin c NSS 0 s
  let address := (addr <<< 1) &&& 0x7E
  let s2 := spiWrite c address s1
  let s3 := spiWrite c val s2
  digitalWritePin c NSS 1 s3

/-- readReg from the source: frame byte ((addr << 1) & 0x7E) | 0x80, one byte
received, bracketed by chip-select low and high. -/
def readReg (c : Chip σ) (addr : Nat) (s : St σ) : Nat × St σ :=
  let s1 := digitalWritePin c NSS 0 s
  let address := ((addr <<< 1) &&& 0x7E) ||| 0x80
  let s2 := spiWrite c address s1
  let r := spiRead c 0 s2
  (r.1, digitalWritePin c NSS 1 r.2)

/-- setBitMask from the source: read-modify-write ORing the mask in. -/
def setBitMask (c : Chip σ) (addr mask : Nat) (s : St σ) : St σ :=
  let r := readReg c addr s
  writeReg c addr (jsOr r.1 mask) r.2

/-- clearBitMask from the source: read-modify-write ANDing with NOT mask. -/
def clearBitMask (c : Chip σ) (addr mask : Nat) (s : St σ) : St σ :=
  let r := readReg c addr s
  writeReg c addr (jsAnd r.1 (jsNot32 mask)) r.2

/-- The busy-wait loop of resetModule, indexed by fuel: polls CommandReg
until bit 4 clears; returns none when the fuel runs out first. -/
def resetPoll (c : Chip σ) : Nat → St σ → Option (St σ)
  | 0, _ => none
  | fuel + 1, s =>
    let r := readReg c CommandReg s
    if r.1 &&& (1 <<< 4) ≠ 0 then resetPoll c fuel (pause 1 r.2) else some r.2

/-- resetModule from the source: writes SoftReset to CommandReg, pauses 50,
then busy-polls CommandReg bit 4 (fuel-indexed, as the source loop has no
bound of its own). -/
def resetModule (c : Chip σ) (fuel : Nat) (s : St σ) : Option (St σ) :=
  let s1 := writeReg c CommandReg PCD_SOFTRESET s
  let s2 := pause 50 s1
  resetPoll c fuel s2

/-- The do-while IRQ polling loop of requestCard: the argument is the value
of the loop counter i at the start of the body; the body always runs once,
then repeats while i - 1 > 0 and the mask 0x30 bits are clear. -/
def pollIrq (c : Chip σ) : Nat → St σ → Nat × St σ
  | 0, s => readReg c ComIrqReg (pause 1 s)
  | 1, s => readReg c ComIrqReg (pause 1 s)
  | j + 2, s =>
    let r := readReg c ComIrqReg (pause 1 s)
    if r.1 &&& 0x30 = 0 then pollIrq c (j + 1) r.2 else r

/-- requestCard from the source: configures framing, flushes the FIFO, pushes
the request byte, starts Transceive, polls ComIrqReg (do-while, i = 25), then
reads FIFOLevelReg and returns 1 exactly when that read equals 2. -/
def requestCard (c : Chip σ) (reqMode : Nat) (s : St σ) : Nat × St σ :=
  let s1 := writeReg c BitFramingReg 0x07 s
  let s2 := writeReg c FIFOLevelReg 0x80 s1
  let s3 := digitalWritePin c NSS 0 s2
  let addr := (FIFODataReg <<< 1) &&& 0x7E
  let s4 := spiWrite c addr s3
  let s5 := spiWrite c reqMode s4
  let s6 := digitalWritePin c NSS 1 s5
  let s7 := writeReg c CommandReg PCD_TRANSCEIVE s6
  let s8 := setBitMask c BitFramingReg 0x80 s7
  let s9 := pause 10 s8
  let s10 := clearBitMask c BitFramingReg 0x80 s9
  let r := pollIrq c 25 s10
  let q := readReg c FIFOLevelReg r.2
  if q.1 = 2 then (1, q.2) else (0, q.2)

/-- The FIFO draining loop of anticollision: n reads of FIFODataReg. -/
def readFifo (c : Chip σ) : Nat → St σ → List Nat × St σ
  | 0, s => ([], s)
  | n + 1, s =>
    let r := readReg c FIFODataReg s
    let rest := readFifo c n r.2
    (r.1 :: rest.1, rest.2)

/-- JavaScript Number.toString(16) for a nonnegative integer: lowercase hex
digits, no leading zeros, and "0" for zero. -/
def toHexJs (n : Nat) : String := ⟨Nat.toDigits 16 n⟩

/-- JavaScript String.toUpperCase on ASCII strings. -/
def toUpperStr (s : String) : String := ⟨s.data.map Char.toUpper⟩

/-- The per-byte formatting of the anticollision loop body: toString(16),
left-pad to two characters with "0", then toUpperCase. -/
def hexByte (b : Nat) : String :=
  let hex := toHexJs b
  let hex2 := if hex.length < 2 then "0" ++ hex else hex
  toUpperStr hex2

/-- The UID string accumulation loop of anticollision. -/
def uidString (uid : List Nat) : String :=
  uid.foldl (fun acc b => acc ++ hexByte b) ""

/-- anticollision from the source: flushes the FIFO, pushes the anticollision
command 0x93 and NVB 0x20, starts Transceive, reads FIFOLevelReg; on any
value other than 5 returns the empty string, otherwise drains 5 FIFO bytes
and formats them as uppercase zero-padded hex. -/
def anticollision (c : Chip σ) (s : St σ) : String × St σ :=
  let s1 := writeReg c FIFOLevelReg 0x80 s
  let s2 := digitalWritePin c NSS 0 s1
  let addr := (FIFODataReg <<< 1) &&& 0x7E
  let s3 := spiWrite c addr s2
  let s4 := spiWrite c PICC_ANTICOLL s3
  let s5 := spiWrite c 0x20 s4
  let s6 := digitalWritePin c NSS 1 s5
  let s7 := writeReg c CommandReg PCD_TRANSCEIVE s6
  let s8 := setBitMask c BitFramingReg 0x80 s7
  let s9 := pause 10 s8
  let s10 := clearBitMask c BitFramingReg 0x80 s9
  let q := readReg c FIFOLevelReg s10
  if q.1 ≠ 5 then ("", q.2)
  else
    let u := readFifo c q.1 q.2
    (uidString u.1, u.2)

/-- getID from the source (the getCardUID entry point of the spec): presence
poll, then anticollision only on presence signal 1. -/
def getID (c : Chip σ) (s : St σ) : String × St σ :=
  let r := requestCard c PICC_REQIDL s
  if r.1 = 1 then anticollision c r.2 else ("", r.2)

/-- Bump a per-frame counter: add k to the count of frame f. -/
def bump (f k : Nat) (c : Nat → Nat) : Nat → Nat :=
  fun g => if g = f then c g + k else c g

/-- Oracle chip state: resp f n is the byte answered to the n-th read whose
preceding frame byte was f; lastW is the last byte written on the bus; cnt
counts the reads performed per frame byte. -/
structure OracleSt where
  resp : Nat → Nat → Nat
  lastW : Nat
  cnt : Nat → Nat

/-- The oracle chip: reads answer resp at the current frame and count, reduced
to a byte, as produced by the 8-bit registers of the real chip. -/
def oracleChip : Chip OracleSt where
  onCS := fun d _ => d
  onWrite := fun d b => { d with lastW := b }
  onRead := fun d =>
    (d.resp d.lastW (d.cnt d.lastW) % 256, { d with cnt := bump d.lastW 1 d.cnt })

/-- A fresh run state for the oracle chip: empty trace, all counts zero. -/
def initSt (resp : Nat → Nat → Nat) : St OracleSt :=
  ⟨⟨resp, 0, fun _ => 0⟩, []⟩

/-- Register-file chip state: regs holds the last written value per decoded
address; wpend is a pending write address after a write frame; raddr is the
address selected by the last read frame. -/
structure RegFileSt where
  regs : Nat → Nat
  wpend : Option Nat
  raddr : Nat

/-- The register-file chip: decodes the MFRC522 SPI frames; reads return the
last written value of the selected register. -/
def regFileChip : Chip RegFileSt where
  onCS := fun d _ => d
  onWrite := fun d b =>
    match d.wpend with
    | some a => { d with regs := fun r => if r = a then b else d.regs r, wpend := none }
    | none =>
      if b &&& 0x80 ≠ 0 then { d with raddr := (b >>> 1) &&& 0x3F }
      else { d with wpend := some ((b >>> 1) &&& 0x3F) }
  onRead := fun d => (d.regs d.raddr, d)

/-- A fresh run state for the register-file chip. -/
def regSt (regs : Nat → Nat) (raddr : Nat) : St RegFileSt := ⟨⟨regs, none, raddr⟩, []⟩

/-- The register index addressed by the driver for a register address a
(decoded by the register-file chip from the frame byte). -/
def regIdx (a : Nat) : Nat := (((a <<< 1) &&& 0x7E) >>> 1) &&& 0x3F

/-- Modelled from the spec: the two-character uppercase zero-padded
hexadecimal encoding of one byte, following the spec sentence that every
byte formats as two characters with a leading zero for values 0x00 to 0x0F. -/
def hexByteSpec (b : Nat) : String :=
  ⟨[Nat.digitChar (b / 16), Nat.digitChar (b % 16)].map Char.toUpper⟩

/-- Chip response function for the C1 witness run. -/
def respC1 : Nat → Nat → Nat := fun f n =>
  if f = 0x94 then (if n = 0 then 2 else 5)
  else if f = 0x92 then
    (if n = 0 then 0x04 else if n = 1 then 0xAA else if n = 2 then 0xBB
     else if n = 3 then 0xCC else 0xDD)
  else 0

def respC2 : Nat → Nat → Nat := fun f _ => if f = 0x94 then 7 else 0

def respC3 : Nat → Nat → Nat := fun _ _ => 0

def respC4 : Nat → Nat → Nat := fun f _ => if f = 0x94 then 2 else 0

def respC5 : Nat → Nat → Nat := fun f n =>
  if f = 0x82 then (if n < 3 then 0x10 else 0) else 0

def respC9 : Nat → Nat → Nat := fun f _ => if f = 0x94 then 2 else 0

def respC10 : Nat → Nat → Nat := fun f _ => if f = 0x94 then 4 else 0

theorem bump_add (f a b : Nat) (c : Nat → Nat) :
    bump f a (bump f b c) = bump f (b + a) c := by
  funext g
  simp only [bump]
  split <;> omega

theorem readReg_oracle (a : Nat) (s : St OracleSt) :
    readReg oracleChip a s =
      (s.dev.resp (((a <<< 1) &&& 0x7E) ||| 0x80) (s.dev.cnt (((a <<< 1) &&& 0x7E) ||| 0x80)) % 256,
       ⟨⟨s.dev.resp, ((a <<< 1) &&& 0x7E) ||| 0x80,
         bump (((a <<< 1) &&& 0x7E) ||| 0x80) 1 s.dev.cnt⟩,
        s.trace ++ [Ev.pin NSS 0, Ev.mosi (((a <<< 1) &&& 0x7E) ||| 0x80),
          Ev.miso (s.dev.resp (((a <<< 1) &&& 0x7E) ||| 0x80)
            (s.dev.cnt (((a <<< 1) &&& 0x7E) ||| 0x80)) % 256), Ev.pin NSS 1]⟩) := by
  simp [readReg, digitalWritePin, spiWrite, spiRead, oracleChip]

theorem writeReg_oracle (a v : Nat) (s : St OracleSt) :
    writeReg oracleChip a v s =
      ⟨⟨s.dev.resp, v, s.dev.cnt⟩,
       s.trace ++ [Ev.pin NSS 0, Ev.mosi ((a <<< 1) &&& 0x7E), Ev.mosi v, Ev.pin NSS 1]⟩ := by
  simp [writeReg, digitalWritePin, spiWrite, oracleChip]

theorem setBitMask_oracle (a m : Nat) (s : St OracleSt) :
    setBitMask oracleChip a m s =
      ⟨⟨s.dev.resp,
        jsOr (s.dev.resp (((a <<< 1) &&& 0x7E) ||| 0x80) (s.dev.cnt (((a <<< 1) &&& 0x7E) ||| 0x80)) % 256) m,
        bump (((a <<< 1) &&& 0x7E) ||| 0x80) 1 s.dev.cnt⟩,
       s.trace ++ [Ev.pin NSS 0, Ev.mosi (((a <<< 1) &&& 0x7E) ||| 0x80),
          Ev.miso (s.dev.resp (((a <<< 1) &&& 0x7E) ||| 0x80)
            (s.dev.cnt (((a <<< 1) &&& 0x7E) ||| 0x80)) % 256), Ev.pin NSS 1,
          Ev.pin NSS 0, Ev.mosi ((a <<< 1) &&& 0x7E),
          Ev.mosi (jsOr (s.dev.resp (((a <<< 1) &&& 0x7E) ||| 0x80)
            (s.dev.cnt (((a <<< 1) &&& 0x7E) ||| 0x80)) % 256) m), Ev.pin NSS 1]⟩ := by
  simp [setBitMask, readReg_oracle, writeReg_oracle]

theorem clearBitMask_oracle (a m : Nat) (s : St OracleSt) :
    clearBitMask oracleChip a m s =
      ⟨⟨s.dev.resp,
        jsAnd (s.dev.resp (((a <<< 1) &&& 0x7E) ||| 0x80) (s.dev.cnt (((a <<< 1) &&& 0x7E) ||| 0x80)) % 256) (jsNot32 m),
        bump (((a <<< 1) &&& 0x7E) ||| 0x80) 1 s.dev.cnt⟩,
       s.trace ++ [Ev.pin NSS 0, Ev.mosi (((a <<< 1) &&& 0x7E) ||| 0x80),
          Ev.miso (s.dev.resp (((a <<< 1) &&& 0x7E) ||| 0x80)
            (s.dev.cnt (((a <<< 1) &&& 0x7E) ||| 0x80)) % 256), Ev.pin NSS 1,
          Ev.pin NSS 0, Ev.mosi ((a <<< 1) &&& 0x7E),
          Ev.mosi (jsAnd (s.dev.resp (((a <<< 1) &&& 0x7E) ||| 0x80)
            (s.dev.cnt (((a <<< 1) &&& 0x7E) ||| 0x80)) % 256) (jsNot32 m)), Ev.pin NSS 1]⟩ := by
  simp [clearBitMask, readReg_oracle, writeReg_oracle]

theorem bump_same (f k : Nat) (c : Nat → Nat) : bump f k c f = c f + k := by
  simp [bump]

theorem bump_ne (g f k : Nat) (c : Nat → Nat) (h : g ≠ f) : bump f k c g = c g := by
  simp [bump, h]

theorem rd_frame_comirq : ((ComIrqReg <<< 1) &&& 0x7E) ||| 0x80 = 0x88 := by decide

theorem rd_frame_fifolevel : ((FIFOLevelReg <<< 1) &&& 0x7E) ||| 0x80 = 0x94 := by decide

theorem rd_frame_fifodata : ((FIFODataReg <<< 1) &&& 0x7E) ||| 0x80 = 0x92 := by decide

theorem rd_frame_bitframing : ((BitFramingReg <<< 1) &&& 0x7E) ||| 0x80 = 0x9A := by decide

theorem rd_frame_command : ((CommandReg <<< 1) &&& 0x7E) ||| 0x80 = 0x82 := by decide

theorem wr_frame_bitframing : (BitFramingReg <<< 1) &&& 0x7E = 0x1A := by decide

theorem wr_frame_fifolevel : (FIFOLevelReg <<< 1) &&& 0x7E = 0x14 := by decide

theorem wr_frame_fifodata : (FIFODataReg <<< 1) &&& 0x7E = 0x12 := by decide

theorem wr_frame_command : (CommandReg <<< 1) &&& 0x7E = 0x02 := by decide

theorem pollIrq_oracle (i : Nat) (s : St OracleSt) :
    ∃ k t, 1 ≤ k ∧ k ≤ max i 1 ∧
      pollIrq oracleChip i s =
        (s.dev.resp 0x88 (s.dev.cnt 0x88 + (k - 1)) % 256,
         ⟨⟨s.dev.resp, 0x88, bump 0x88 k s.dev.cnt⟩, s.trace ++ t⟩) ∧
      (∀ j, j + 1 < k → s.dev.resp 0x88 (s.dev.cnt 0x88 + j) % 256 &&& 0x30 = 0) ∧
      (k < i → s.dev.resp 0x88 (s.dev.cnt 0x88 + (k - 1)) % 256 &&& 0x30 ≠ 0) := by
  induction i using Nat.strong_induction_on generalizing s with
  | _ i ih =>
    rcases i with _ | _ | j
    · refine ⟨1, [Ev.wait 1, Ev.pin NSS 0, Ev.mosi 0x88,
        Ev.miso (s.dev.resp 0x88 (s.dev.cnt 0x88) % 256), Ev.pin NSS 1],
        le_refl 1, by omega, ?_, fun j h => absurd h (by omega), fun h => absurd h (by omega)⟩
      simp [pollIrq, pause, readReg_oracle, rd_frame_comirq]
    · refine ⟨1, [Ev.wait 1, Ev.pin NSS 0, Ev.mosi 0x88,
        Ev.miso (s.dev.resp 0x88 (s.dev.cnt 0x88) % 256), Ev.pin NSS 1],
        le_refl 1, by omega, ?_, fun j h => absurd h (by omega), fun h => absurd h (by omega)⟩
      simp [pollIrq, pause, readReg_oracle, rd_frame_comirq]
    · have hstep : pollIrq oracleChip (j + 2) s =
        if s.dev.resp 0x88 (s.dev.cnt 0x88) % 256 &&& 0x30 = 0 then
          pollIrq oracleChip (j + 1)
            ⟨⟨s.dev.resp, 0x88, bump 0x88 1 s.dev.cnt⟩,
             s.trace ++ [Ev.wait 1, Ev.pin NSS 0, Ev.mosi 0x88,
               Ev.miso (s.dev.resp 0x88 (s.dev.cnt 0x88) % 256), Ev.pin NSS 1]⟩
        else
          (s.dev.resp 0x88 (s.dev.cnt 0x88) % 256,
           ⟨⟨s.dev.resp, 0x88, bump 0x88 1 s.dev.cnt⟩,
            s.trace ++ [Ev.wait 1, Ev.pin NSS 0, Ev.mosi 0x88,
              Ev.miso (s.dev.resp 0x88 (s.dev.cnt 0x88) % 256), Ev.pin NSS 1]⟩) := by
        simp [pollIrq, pause, readReg_oracle, rd_frame_comirq]
      by_cases hc : s.dev.resp 0x88 (s.dev.cnt 0x88) % 256 &&& 0x30 = 0
      · rw [hstep, if_pos hc]
        obtain ⟨k', t', hk1, hkmax, heq, hearly, hbudget⟩ :=
          ih (j + 1) (by omega)
            ⟨⟨s.dev.resp, 0x88, bump 0x88 1 s.dev.cnt⟩,
             s.trace ++ [Ev.wait 1, Ev.pin NSS 0, Ev.mosi 0x88,
               Ev.miso (s.dev.resp 0x88 (s.dev.cnt 0x88) % 256), Ev.pin NSS 1]⟩
        simp only [bump_same] at heq hearly hbudget
        refine ⟨k' + 1, [Ev.wait 1, Ev.pin NSS 0, Ev.mosi 0x88,
               Ev.miso (s.dev.resp 0x88 (s.dev.cnt 0x88) % 256), Ev.pin NSS 1] ++ t',
          by omega, by omega, ?_, ?_, ?_⟩
        · rw [heq, show s.dev.cnt 0x88 + 1 + (k' - 1) = s.dev.cnt 0x88 + (k' + 1 - 1) by omega,
            bump_add, Nat.add_comm 1 k', List.append_assoc]
        · intro j' hj'
          rcases Nat.eq_zero_or_pos j' with hz | hp
          · subst hz; simpa using hc
          · have h5 := hearly (j' - 1) (by omega)
            rwa [show s.dev.cnt 0x88 + 1 + (j' - 1) = s.dev.cnt 0x88 + j' by omega] at h5
        · intro hlt
          have h6 := hbudget (by omega)
          rwa [show s.dev.cnt 0x88 + 1 + (k' - 1) = s.dev.cnt 0x88 + (k' + 1 - 1) by omega] at h6
      · refine ⟨1, [Ev.wait 1, Ev.pin NSS 0, Ev.mosi 0x88,
               Ev.miso (s.dev.resp 0x88 (s.dev.cnt 0x88) % 256), Ev.pin NSS 1],
          le_refl 1, by omega, ?_, fun j h => absurd h (by omega), fun _ => by simpa using hc⟩
        rw [hstep, if_neg hc]
        norm_num

theorem pinWrite_oracle (p v : Nat) (s : St OracleSt) :
    digitalWritePin oracleChip p v s = ⟨s.dev, s.trace ++ [Ev.pin p v]⟩ := by
  simp only [digitalWritePin, oracleChip]
  split <;> rfl

theorem spiWrite_oracle (b : Nat) (s : St OracleSt) :
    spiWrite oracleChip b s = ⟨⟨s.dev.resp, b, s.dev.cnt⟩, s.trace ++ [Ev.mosi b]⟩ := by
  simp [spiWrite, oracleChip]

theorem or26 : (26 : Nat) ||| 128 = 154 := by decide

theorem or20 : (20 : Nat) ||| 128 = 148 := by decide

theorem or18 : (18 : Nat) ||| 128 = 146 := by decide

theorem or8 : (8 : Nat) ||| 128 = 136 := by decide

theorem or2 : (2 : Nat) ||| 128 = 130 := by decide

theorem requestCard_prologue (m : Nat) (s : St OracleSt) :
    ∃ L0 w0,
      clearBitMask oracleChip BitFramingReg 0x80 (pause 10 (setBitMask oracleChip BitFramingReg 0x80
        (writeReg oracleChip CommandReg PCD_TRANSCEIVE (digitalWritePin oracleChip NSS 1
          (spiWrite oracleChip m (spiWrite oracleChip ((FIFODataReg <<< 1) &&& 0x7E)
            (digitalWritePin oracleChip NSS 0 (writeReg oracleChip FIFOLevelReg 0x80
              (writeReg oracleChip BitFramingReg 0x07 s))))))))) =
      ⟨⟨s.dev.resp, w0, bump 0x9A 1 (bump 0x9A 1 s.dev.cnt)⟩, s.trace ++ L0⟩ :=
  ⟨_, _, by
    simp only [writeReg_oracle, spiWrite_oracle, pinWrite_oracle, pause,
      setBitMask_oracle, clearBitMask_oracle, wr_frame_fifodata, wr_frame_bitframing,
      wr_frame_fifolevel, wr_frame_command, or26, or20, or18, or2,
      List.append_assoc, List.cons_append, List.nil_append]
    rfl⟩

theorem requestCard_oracle (m : Nat) (s : St OracleSt) :
    ∃ k t, 1 ≤ k ∧ k ≤ 25 ∧
      requestCard oracleChip m s =
        ((if s.dev.resp 0x94 (s.dev.cnt 0x94) % 256 = 2 then 1 else 0),
         ⟨⟨s.dev.resp, 0x94,
           bump 0x94 1 (bump 0x88 k (bump 0x9A 1 (bump 0x9A 1 s.dev.cnt)))⟩,
          s.trace ++ t⟩) ∧
      (∀ j, j + 1 < k → s.dev.resp 0x88 (s.dev.cnt 0x88 + j) % 256 &&& 0x30 = 0) ∧
      (k < 25 → s.dev.resp 0x88 (s.dev.cnt 0x88 + (k - 1)) % 256 &&& 0x30 ≠ 0) := by
  obtain ⟨L0, w0, hpro⟩ := requestCard_prologue m s
  obtain ⟨k, t', hk1, hkmax, hpoll, hearly, hbudget⟩ :=
    pollIrq_oracle 25 ⟨⟨s.dev.resp, w0, bump 0x9A 1 (bump 0x9A 1 s.dev.cnt)⟩, s.trace ++ L0⟩
  simp only [bump_ne, bump_same] at hpoll
  simp [bump_ne] at hearly
  simp [bump_ne] at hbudget
  refine ⟨k, ?t, hk1, by omega, ?eq, hearly, hbudget⟩
  case eq =>
    simp only [requestCard]
    rw [hpro, hpoll]
    simp only [readReg_oracle, rd_frame_fifolevel]
    simp [bump_ne, List.append_assoc]
    by_cases h2 : s.dev.resp 148 (s.dev.cnt 148) % 256 = 2
    · rw [if_pos h2, if_pos h2]
      exact rfl
    · rw [if_neg h2, if_neg h2]

theorem bump_zero (f : Nat) (c : Nat → Nat) : bump f 0 c = c := by
  funext g
  simp [bump]

theorem readFifo5_oracle (s : St OracleSt) :
    readFifo oracleChip 5 s =
      ([s.dev.resp 0x92 (s.dev.cnt 0x92) % 256,
        s.dev.resp 0x92 (s.dev.cnt 0x92 + 1) % 256,
        s.dev.resp 0x92 (s.dev.cnt 0x92 + 2) % 256,
        s.dev.resp 0x92 (s.dev.cnt 0x92 + 3) % 256,
        s.dev.resp 0x92 (s.dev.cnt 0x92 + 4) % 256],
       ⟨⟨s.dev.resp, 0x92, bump 0x92 5 s.dev.cnt⟩,
        s.trace ++
          [Ev.pin NSS 0, Ev.mosi 0x92, Ev.miso (s.dev.resp 0x92 (s.dev.cnt 0x92) % 256), Ev.pin NSS 1,
           Ev.pin NSS 0, Ev.mosi 0x92, Ev.miso (s.dev.resp 0x92 (s.dev.cnt 0x92 + 1) % 256), Ev.pin NSS 1,
           Ev.pin NSS 0, Ev.mosi 0x92, Ev.miso (s.dev.resp 0x92 (s.dev.cnt 0x92 + 2) % 256), Ev.pin NSS 1,
           Ev.pin NSS 0, Ev.mosi 0x92, Ev.miso (s.dev.resp 0x92 (s.dev.cnt 0x92 + 3) % 256), Ev.pin NSS 1,
           Ev.pin NSS 0, Ev.mosi 0x92, Ev.miso (s.dev.resp 0x92 (s.dev.cnt 0x92 + 4) % 256), Ev.pin NSS 1]⟩) := by
  simp [readFifo, readReg_oracle, rd_frame_fifodata, bump_same, bump_add,
    List.append_assoc]

theorem anticollision_prologue (s : St OracleSt) :
    ∃ L0 w0,
      clearBitMask oracleChip BitFramingReg 0x80 (pause 10 (setBitMask oracleChip BitFramingReg 0x80
        (writeReg oracleChip CommandReg PCD_TRANSCEIVE (digitalWritePin oracleChip NSS 1
          (spiWrite oracleChip 0x20 (spiWrite oracleChip PICC_ANTICOLL
            (spiWrite oracleChip ((FIFODataReg <<< 1) &&& 0x7E)
              (digitalWritePin oracleChip NSS 0 (writeReg oracleChip FIFOLevelReg 0x80 s))))))))) =
      ⟨⟨s.dev.resp, w0, bump 0x9A 1 (bump 0x9A 1 s.dev.cnt)⟩, s.trace ++ L0⟩ :=
  ⟨_, _, by
    simp only [writeReg_oracle, spiWrite_oracle, pinWrite_oracle, pause,
      setBitMask_oracle, clearBitMask_oracle, wr_frame_fifodata, wr_frame_bitframing,
      wr_frame_fifolevel, wr_frame_command, or26, or20, or18, or2,
      List.append_assoc, List.cons_append, List.nil_append]
    rfl⟩

theorem anticollision_oracle (s : St OracleSt) :
    (s.dev.resp 0x94 (s.dev.cnt 0x94) % 256 ≠ 5 →
      ∃ t, anticollision oracleChip s =
        ("", ⟨⟨s.dev.resp, 0x94, bump 0x94 1 (bump 0x9A 1 (bump 0x9A 1 s.dev.cnt))⟩,
          s.trace ++ t⟩)) ∧
    (s.dev.resp 0x94 (s.dev.cnt 0x94) % 256 = 5 →
      ∃ t, anticollision oracleChip s =
        (uidString [s.dev.resp 0x92 (s.dev.cnt 0x92) % 256,
                    s.dev.resp 0x92 (s.dev.cnt 0x92 + 1) % 256,
                    s.dev.resp 0x92 (s.dev.cnt 0x92 + 2) % 256,
                    s.dev.resp 0x92 (s.dev.cnt 0x92 + 3) % 256,
                    s.dev.resp 0x92 (s.dev.cnt 0x92 + 4) % 256],
         ⟨⟨s.dev.resp, 0x92,
           bump 0x92 5 (bump 0x94 1 (bump 0x9A 1 (bump 0x9A 1 s.dev.cnt)))⟩,
          s.trace ++ t⟩)) := by
  obtain ⟨L0, w0, hpro⟩ := anticollision_prologue s
  constructor
  · intro h5
    exact ⟨_, by
      simp only [anticollision]
      rw [hpro]
      simp only [readReg_oracle, rd_frame_fifolevel]
      simp [bump_ne, h5, List.append_assoc]
      rfl⟩
  · intro h5
    exact ⟨_, by
      simp only [anticollision]
      rw [hpro]
      simp only [readReg_oracle, rd_frame_fifolevel]
      simp [bump_ne, h5, readFifo5_oracle, bump_same, List.append_assoc]
      rfl⟩

set_option maxRecDepth 10000

theorem str_empty_append (s : String) : "" ++ s = s := by
  cases s
  rfl

theorem hexByte_eq_spec : ∀ b < 256, hexByte b = hexByteSpec b := by decide

theorem hexByteSpec_len (b : Nat) : (hexByteSpec b).length = 2 := rfl

theorem uidString_five (a b c d e : Nat) :
    uidString [a, b, c, d, e] =
      hexByte a ++ hexByte b ++ hexByte c ++ hexByte d ++ hexByte e := by
  simp [uidString, List.foldl, str_empty_append]


theorem hexByte_len (b : Nat) (hb : b < 256) : (hexByte b).length = 2 := by
  rw [hexByte_eq_spec b hb]
  rfl

/-- C1: for every run of getID from a fresh state in which the presence poll
reads 2 FIFO bytes, the anticollision FIFO level read returns 5, and the five
FIFODataReg reads return the bytes b0 to b4, the result is the concatenation
of the two-digit uppercase zero-padded hexadecimal encodings of those five
bytes in order, a string of exactly 10 characters. -/
theorem getID_uid_claim (resp : Nat → Nat → Nat) (b0 b1 b2 b3 b4 : Nat)
    (hb0 : b0 < 256) (hb1 : b1 < 256) (hb2 : b2 < 256) (hb3 : b3 < 256) (hb4 : b4 < 256)
    (h2 : resp 0x94 0 = 2) (h5 : resp 0x94 1 = 5)
    (r0 : resp 0x92 0 = b0) (r1 : resp 0x92 1 = b1) (r2 : resp 0x92 2 = b2)
    (r3 : resp 0x92 3 = b3) (r4 : resp 0x92 4 = b4) :
    (getID oracleChip (initSt resp)).1 =
      hexByteSpec b0 ++ hexByteSpec b1 ++ hexByteSpec b2 ++ hexByteSpec b3 ++ hexByteSpec b4 ∧
    (getID oracleChip (initSt resp)).1.length = 10 := by
  obtain ⟨k, t, hk1, hk25, hreq, hearly, hbudget⟩ :=
    requestCard_oracle PICC_REQIDL (initSt resp)
  have hstatus : (requestCard oracleChip PICC_REQIDL (initSt resp)).1 = 1 := by
    rw [hreq]
    simp [initSt, h2]
  have hgetid : getID oracleChip (initSt resp) =
      anticollision oracleChip (requestCard oracleChip PICC_REQIDL (initSt resp)).2 := by
    simp only [getID]
    rw [hstatus]
    simp
  obtain ⟨ha_err, ha_ok⟩ :=
    anticollision_oracle (requestCard oracleChip PICC_REQIDL (initSt resp)).2
  have hcnt : (requestCard oracleChip PICC_REQIDL (initSt resp)).2.dev.resp 0x94
      ((requestCard oracleChip PICC_REQIDL (initSt resp)).2.dev.cnt 0x94) % 256 = 5 := by
    rw [hreq]
    simp [initSt, bump_same, bump_ne, h5]
  obtain ⟨t2, hanti⟩ := ha_ok hcnt
  rw [hgetid, hanti]
  constructor
  · simp only [hreq]
    simp only [initSt]
    simp [bump_ne, r0, r1, r2, r3, r4, Nat.mod_eq_of_lt, hb0, hb1, hb2, hb3, hb4,
      uidString_five]
    rw [hexByte_eq_spec _ hb0, hexByte_eq_spec _ hb1, hexByte_eq_spec _ hb2,
      hexByte_eq_spec _ hb3, hexByte_eq_spec _ hb4]
  · simp only [hreq]
    simp only [initSt]
    simp [bump_ne, r0, r1, r2, r3, r4, Nat.mod_eq_of_lt, hb0, hb1, hb2, hb3, hb4,
      uidString_five, String.length_append, hexByte_len]

theorem hexByte_mod_len (x : Nat) : (hexByte (x % 256)).length = 2 :=
  hexByte_len _ (Nat.mod_lt _ (by norm_num))

/-- C2: every run of anticollision whose FIFOLevelReg read returns a value
other than 5 produces the empty string, and consequently the result of getID
is always either the empty string or a full 10-character hex UID; no partial
UID is ever returned. -/
theorem uid_total_claim :
    (∀ s : St OracleSt, s.dev.resp 0x94 (s.dev.cnt 0x94) % 256 ≠ 5 →
      (anticollision oracleChip s).1 = "") ∧
    (∀ s : St OracleSt, (getID oracleChip s).1 = "" ∨ (getID oracleChip s).1.length = 10) := by
  constructor
  · intro s hne
    obtain ⟨ha_err, _⟩ := anticollision_oracle s
    obtain ⟨t, h⟩ := ha_err hne
    rw [h]
  · intro s
    obtain ⟨k, t, hk1, hk25, hreq, _, _⟩ := requestCard_oracle PICC_REQIDL s
    by_cases hp : s.dev.resp 0x94 (s.dev.cnt 0x94) % 256 = 2
    · have hstatus : (requestCard oracleChip PICC_REQIDL s).1 = 1 := by
        rw [hreq]; simp [hp]
      have hgetid : getID oracleChip s =
          anticollision oracleChip (requestCard oracleChip PICC_REQIDL s).2 := by
        simp only [getID]
        rw [hstatus]
        simp
      obtain ⟨ha_err, ha_ok⟩ :=
        anticollision_oracle (requestCard oracleChip PICC_REQIDL s).2
      by_cases h5 : (requestCard oracleChip PICC_REQIDL s).2.dev.resp 0x94
          ((requestCard oracleChip PICC_REQIDL s).2.dev.cnt 0x94) % 256 = 5
      · right
        obtain ⟨t2, hanti⟩ := ha_ok h5
        rw [hgetid, hanti]
        simp [uidString_five, String.length_append, hexByte_mod_len]
      · left
        obtain ⟨t2, hanti⟩ := ha_err h5
        rw [hgetid, hanti]
    · left
      have hstatus : (requestCard oracleChip PICC_REQIDL s).1 = 0 := by
        rw [hreq]; simp [hp]
      simp only [getID]
      rw [hstatus]
      simp

/-- C3: whenever the presence poll does not report exactly 2 FIFO bytes (so
requestCard does not return 1), getID returns the empty string and the
anticollision exchange is not performed at all: the final state is exactly
the state left by requestCard. -/
theorem getID_noCard_claim (resp : Nat → Nat → Nat)
    (h : resp 0x94 0 % 256 ≠ 2) :
    (getID oracleChip (initSt resp)).1 = "" ∧
    getID oracleChip (initSt resp) =
      ("", (requestCard oracleChip PICC_REQIDL (initSt resp)).2) := by
  obtain ⟨k, t, hk1, hk25, hreq, hearly, hbudget⟩ :=
    requestCard_oracle PICC_REQIDL (initSt resp)
  have hstatus : (requestCard oracleChip PICC_REQIDL (initSt resp)).1 = 0 := by
    rw [hreq]
    simp [initSt, h]
  have hg : getID oracleChip (initSt resp) =
      ("", (requestCard oracleChip PICC_REQIDL (initSt resp)).2) := by
    simp only [getID]
    rw [hstatus]
    simp
  exact ⟨by rw [hg], hg⟩

/-- C4: requestCard reads ComIrqReg at least once and at most 25 times,
every ComIrq read before the last has the mask 0x30 bits clear, and when the
loop stops before the 25-read budget the last read has a mask bit set; it
then reads FIFOLevelReg exactly once and returns 1 if and only if that read
equals 2, returning 0 otherwise. -/
theorem requestCard_poll_claim (m : Nat) (resp : Nat → Nat → Nat) :
    ∃ k, 1 ≤ k ∧ k ≤ 25 ∧
      (requestCard oracleChip m (initSt resp)).2.dev.cnt 0x88 = k ∧
      (∀ j, j + 1 < k → resp 0x88 j % 256 &&& 0x30 = 0) ∧
      (k < 25 → resp 0x88 (k - 1) % 256 &&& 0x30 ≠ 0) ∧
      (requestCard oracleChip m (initSt resp)).2.dev.cnt 0x94 = 1 ∧
      ((requestCard oracleChip m (initSt resp)).1 = 1 ↔ resp 0x94 0 % 256 = 2) ∧
      ((requestCard oracleChip m (initSt resp)).1 = 1 ∨
        (requestCard oracleChip m (initSt resp)).1 = 0) := by
  obtain ⟨k, t, hk1, hk25, hreq, hearly, hbudget⟩ := requestCard_oracle m (initSt resp)
  refine ⟨k, hk1, hk25, ?_, ?_, ?_, ?_, ?_, ?_⟩
  · rw [hreq]
    simp [initSt, bump_same, bump_ne]
  · intro j hj
    have h := hearly j hj
    simpa [initSt] using h
  · intro hlt
    have h := hbudget hlt
    simpa [initSt] using h
  · rw [hreq]
    simp [initSt, bump_same, bump_ne]
  · rw [hreq]
    by_cases hp : resp 0x94 0 % 256 = 2 <;> simp [initSt, hp]
  · rw [hreq]
    by_cases hp : resp 0x94 0 % 256 = 2 <;> simp [initSt, hp]

/-- C9: the return value of requestCard does not depend on the ComIrqReg
responses: two runs whose final FIFOLevelReg reads agree return the same
value, and even when every ComIrqReg poll has the mask 0x30 bits clear (the
IRQ budget is exhausted) requestCard still returns 1 whenever the
FIFOLevelReg read is exactly 2. -/
theorem requestCard_irq_claim :
    (∀ (m : Nat) (s1 s2 : St OracleSt),
      s1.dev.resp 0x94 (s1.dev.cnt 0x94) % 256 = s2.dev.resp 0x94 (s2.dev.cnt 0x94) % 256 →
      (requestCard oracleChip m s1).1 = (requestCard oracleChip m s2).1) ∧
    (∀ (m : Nat) (s : St OracleSt),
      (∀ n, s.dev.resp 0x88 n % 256 &&& 0x30 = 0) →
      s.dev.resp 0x94 (s.dev.cnt 0x94) % 256 = 2 →
      (requestCard oracleChip m s).1 = 1) := by
  constructor
  · intro m s1 s2 hagree
    obtain ⟨k1, t1, _, _, h1, _, _⟩ := requestCard_oracle m s1
    obtain ⟨k2, t2, _, _, h2, _, _⟩ := requestCard_oracle m s2
    rw [h1, h2, hagree]
  · intro m s hirq hp
    obtain ⟨k, t, _, _, hreq, _, _⟩ := requestCard_oracle m s
    rw [hreq]
    simp [hp]

/-- C10: when the FIFOLevelReg read of anticollision is not 5, the empty
string is returned and no FIFODataReg read is performed; FIFODataReg reads
happen only in the success case, exactly 5 of them. -/
theorem anticollision_reads_claim (s : St OracleSt) :
    (s.dev.resp 0x94 (s.dev.cnt 0x94) % 256 ≠ 5 →
      (anticollision oracleChip s).1 = "" ∧
      (anticollision oracleChip s).2.dev.cnt 0x92 = s.dev.cnt 0x92) ∧
    (s.dev.resp 0x94 (s.dev.cnt 0x94) % 256 = 5 →
      (anticollision oracleChip s).2.dev.cnt 0x92 = s.dev.cnt 0x92 + 5) := by
  obtain ⟨ha_err, ha_ok⟩ := anticollision_oracle s
  constructor
  · intro h5
    obtain ⟨t, h⟩ := ha_err h5
    rw [h]
    exact ⟨rfl, by simp [bump_ne]⟩
  · intro h5
    obtain ⟨t, h⟩ := ha_ok h5
    rw [h]
    simp [bump_same, bump_ne]

theorem resetPoll_step (fuel : Nat) (s : St OracleSt) :
    resetPoll oracleChip (fuel + 1) s =
      if s.dev.resp 0x82 (s.dev.cnt 0x82) % 256 &&& (1 <<< 4) ≠ 0 then
        resetPoll oracleChip fuel
          ⟨⟨s.dev.resp, 0x82, bump 0x82 1 s.dev.cnt⟩,
           s.trace ++ [Ev.pin NSS 0, Ev.mosi 0x82,
             Ev.miso (s.dev.resp 0x82 (s.dev.cnt 0x82) % 256), Ev.pin NSS 1, Ev.wait 1]⟩
      else
        some ⟨⟨s.dev.resp, 0x82, bump 0x82 1 s.dev.cnt⟩,
          s.trace ++ [Ev.pin NSS 0, Ev.mosi 0x82,
            Ev.miso (s.dev.resp 0x82 (s.dev.cnt 0x82) % 256), Ev.pin NSS 1]⟩ := by
  simp [resetPoll, pause, readReg_oracle, rd_frame_command, List.append_assoc]

theorem resetPoll_isSome (fuel : Nat) :
    ∀ s : St OracleSt, (resetPoll oracleChip fuel s).isSome = true →
      ∃ n, s.dev.resp 0x82 (s.dev.cnt 0x82 + n) % 256 &&& (1 <<< 4) = 0 := by
  induction fuel with
  | zero => intro s h; simp [resetPoll] at h
  | succ fuel ih =>
    intro s h
    rw [resetPoll_step] at h
    by_cases hv : s.dev.resp 0x82 (s.dev.cnt 0x82) % 256 &&& (1 <<< 4) = 0
    · exact ⟨0, by simpa using hv⟩
    · rw [if_pos hv] at h
      obtain ⟨n, hn⟩ := ih _ h
      simp only [bump_same] at hn
      exact ⟨n + 1, by rwa [show s.dev.cnt 0x82 + 1 + n = s.dev.cnt 0x82 + (n + 1) by omega] at hn⟩

theorem resetPoll_clear (n : Nat) :
    ∀ s : St OracleSt,
      s.dev.resp 0x82 (s.dev.cnt 0x82 + n) % 256 &&& (1 <<< 4) = 0 →
      (resetPoll oracleChip (n + 1) s).isSome = true := by
  induction n with
  | zero =>
    intro s h
    rw [Nat.add_zero] at h
    rw [resetPoll_step, if_neg (by simpa using h)]
    rfl
  | succ n ih =>
    intro s h
    rw [resetPoll_step]
    by_cases hv : s.dev.resp 0x82 (s.dev.cnt 0x82) % 256 &&& (1 <<< 4) = 0
    · rw [if_neg (by simpa using hv)]
      rfl
    · rw [if_pos hv]
      apply ih
      simp only [bump_same]
      rwa [show s.dev.cnt 0x82 + 1 + n = s.dev.cnt 0x82 + (n + 1) by omega]

theorem resetPoll_stuck (fuel : Nat) :
    ∀ s : St OracleSt,
      (∀ n, s.dev.resp 0x82 n % 256 &&& (1 <<< 4) ≠ 0) →
      resetPoll oracleChip fuel s = none := by
  induction fuel with
  | zero => intro s _; rfl
  | succ fuel ih =>
    intro s hall
    rw [resetPoll_step, if_pos (hall (s.dev.cnt 0x82))]
    exact ih _ hall

theorem resetPoll_trace (fuel : Nat) :
    ∀ (s : St OracleSt) (s' : St OracleSt),
      resetPoll oracleChip fuel s = some s' → ∃ t, s'.trace = s.trace ++ t := by
  induction fuel with
  | zero => intro s s' h; simp [resetPoll] at h
  | succ fuel ih =>
    intro s s' h
    rw [resetPoll_step] at h
    by_cases hv : s.dev.resp 0x82 (s.dev.cnt 0x82) % 256 &&& (1 <<< 4) = 0
    · rw [if_neg (by simpa using hv)] at h
      have h2 := Option.some.inj h
      exact ⟨[Ev.pin NSS 0, Ev.mosi 0x82,
        Ev.miso (s.dev.resp 0x82 (s.dev.cnt 0x82) % 256), Ev.pin NSS 1],
        by rw [← h2]⟩
    · rw [if_pos hv] at h
      obtain ⟨t, ht⟩ := ih _ _ h
      exact ⟨[Ev.pin NSS 0, Ev.mosi 0x82,
        Ev.miso (s.dev.resp 0x82 (s.dev.cnt 0x82) % 256), Ev.pin NSS 1, Ev.wait 1] ++ t,
        by rw [ht]; simp⟩

theorem resetModule_eq (fuel : Nat) (s : St OracleSt) :
    resetModule oracleChip fuel s =
      resetPoll oracleChip fuel
        ⟨⟨s.dev.resp, PCD_SOFTRESET, s.dev.cnt⟩,
         s.trace ++ [Ev.pin NSS 0, Ev.mosi 0x02, Ev.mosi PCD_SOFTRESET, Ev.pin NSS 1,
           Ev.wait 50]⟩ := by
  simp [resetModule, writeReg_oracle, pause, wr_frame_command, List.append_assoc]

/-- C5: resetModule writes the SoftReset command to CommandReg, waits the
fixed 50-unit settle delay, then busy-polls CommandReg: it returns for some
finite fuel if and only if some poll reads bit 4 clear, and against a chip
whose CommandReg reads always have bit 4 set it returns none for every fuel,
reflecting the unbounded loop in the source. -/
theorem resetModule_claim (s : St OracleSt) :
    (∀ fuel s', resetModule oracleChip fuel s = some s' →
      ∃ t, s'.trace = s.trace ++ [Ev.pin NSS 0, Ev.mosi 0x02, Ev.mosi PCD_SOFTRESET,
        Ev.pin NSS 1, Ev.wait 50] ++ t) ∧
    ((∃ fuel, (resetModule oracleChip fuel s).isSome = true) ↔
      ∃ n, s.dev.resp 0x82 (s.dev.cnt 0x82 + n) % 256 &&& (1 <<< 4) = 0) ∧
    ((∀ n, s.dev.resp 0x82 n % 256 &&& (1 <<< 4) ≠ 0) →
      ∀ fuel, resetModule oracleChip fuel s = none) := by
  refine ⟨?_, ⟨?_, ?_⟩, ?_⟩
  · intro fuel s' h
    rw [resetModule_eq] at h
    obtain ⟨t, ht⟩ := resetPoll_trace fuel _ _ h
    exact ⟨t, by simpa [List.append_assoc] using ht⟩
  · rintro ⟨fuel, hfuel⟩
    rw [resetModule_eq] at hfuel
    have h := resetPoll_isSome fuel _ hfuel
    simpa using h
  · rintro ⟨n, hn⟩
    refine ⟨n + 1, ?_⟩
    rw [resetModule_eq]
    exact resetPoll_clear n _ hn
  · intro hall fuel
    rw [resetModule_eq]
    exact resetPoll_stuck fuel _ hall

/-- C6: for every register address, writeReg transmits the frame byte
(address shifted left by one, masked with 0x7E) followed by the value, and
readReg transmits the same frame with bit 0x80 set, receives one byte and
returns exactly the byte seen on the bus; both bracket the transfer with
chip-select low before and high after. -/
theorem regAccess_claim (c : Chip σ) (a v : Nat) (s : St σ) :
    (writeReg c a v s).trace =
      s.trace ++ [Ev.pin NSS 0, Ev.mosi ((a <<< 1) &&& 0x7E), Ev.mosi v, Ev.pin NSS 1] ∧
    (readReg c a s).2.trace =
      s.trace ++ [Ev.pin NSS 0, Ev.mosi (((a <<< 1) &&& 0x7E) ||| 0x80),
        Ev.miso (readReg c a s).1, Ev.pin NSS 1] := by
  constructor <;>
    simp [writeReg, readReg, digitalWritePin, spiWrite, spiRead, List.append_assoc]

theorem read_frame_bit : ∀ x ≤ 0x7E, (x ||| 0x80) &&& 0x80 ≠ 0 := by decide

theorem write_frame_bit : ∀ x ≤ 0x7E, x &&& 0x80 = 0 := by decide

theorem read_frame_decode : ∀ x ≤ 0x7E, ((x ||| 0x80) >>> 1) &&& 0x3F = (x >>> 1) &&& 0x3F := by
  decide

theorem readReg_regfile (a : Nat) (g : Nat → Nat) (r0 : Nat) (tr : List Ev) :
    readReg regFileChip a ⟨⟨g, none, r0⟩, tr⟩ =
      (g (regIdx a),
       ⟨⟨g, none, regIdx a⟩,
        tr ++ [Ev.pin NSS 0, Ev.mosi (((a <<< 1) &&& 0x7E) ||| 0x80),
          Ev.miso (g (regIdx a)), Ev.pin NSS 1]⟩) := by
  have hb : (((a <<< 1) &&& 0x7E) ||| 0x80) &&& 0x80 ≠ 0 := read_frame_bit _ Nat.and_le_right
  have hd : ((((a <<< 1) &&& 0x7E) ||| 0x80) >>> 1) &&& 0x3F = regIdx a :=
    read_frame_decode _ Nat.and_le_right
  simp [readReg, digitalWritePin, spiWrite, spiRead, regFileChip, hb, hd]

theorem writeReg_regfile (a v : Nat) (g : Nat → Nat) (r0 : Nat) (tr : List Ev) :
    writeReg regFileChip a v ⟨⟨g, none, r0⟩, tr⟩ =
      ⟨⟨fun r => if r = regIdx a then v else g r, none, r0⟩,
       tr ++ [Ev.pin NSS 0, Ev.mosi ((a <<< 1) &&& 0x7E), Ev.mosi v, Ev.pin NSS 1]⟩ := by
  have hb : ((a <<< 1) &&& 0x7E) &&& 0x80 = 0 := write_frame_bit _ Nat.and_le_right
  simp [writeReg, digitalWritePin, spiWrite, regFileChip, hb, regIdx]

theorem setBitMask_regfile (a m : Nat) (g : Nat → Nat) (r0 : Nat) (tr : List Ev) :
    ∃ t, setBitMask regFileChip a m ⟨⟨g, none, r0⟩, tr⟩ =
      ⟨⟨fun r => if r = regIdx a then jsOr (g (regIdx a)) m else g r, none, regIdx a⟩,
       tr ++ t⟩ :=
  ⟨_, by
    simp only [setBitMask]
    rw [readReg_regfile]
    rw [writeReg_regfile]
    simp [List.append_assoc]
    rfl⟩

theorem clearBitMask_regfile (a m : Nat) (g : Nat → Nat) (r0 : Nat) (tr : List Ev) :
    ∃ t, clearBitMask regFileChip a m ⟨⟨g, none, r0⟩, tr⟩ =
      ⟨⟨fun r => if r = regIdx a then jsAnd (g (regIdx a)) (jsNot32 m) else g r,
        none, regIdx a⟩, tr ++ t⟩ :=
  ⟨_, by
    simp only [clearBitMask]
    rw [readReg_regfile]
    rw [writeReg_regfile]
    simp [List.append_assoc]
    rfl⟩

theorem jsOr_idem (a b : Nat) : jsOr (jsOr a b) b = jsOr a b := by
  unfold jsOr
  have h1 : a % 2 ^ 32 ||| b % 2 ^ 32 < 2 ^ 32 :=
    Nat.or_lt_two_pow (Nat.mod_lt _ (by norm_num)) (Nat.mod_lt _ (by norm_num))
  rw [Nat.mod_eq_of_lt h1, Nat.or_assoc, Nat.or_self]

/-- C7: setBitMask is idempotent against a register file where reads return
the last written value: running it twice leaves every register with the same
value as running it once. -/
theorem setBits_idem_claim (a m : Nat) (regs0 : Nat → Nat) (r0 : Nat) (r : Nat) :
    (setBitMask regFileChip a m (setBitMask regFileChip a m (regSt regs0 r0))).dev.regs r =
      (setBitMask regFileChip a m (regSt regs0 r0)).dev.regs r := by
  simp only [regSt]
  obtain ⟨t1, h1⟩ := setBitMask_regfile a m regs0 r0 []
  rw [h1]
  obtain ⟨t2, h2⟩ := setBitMask_regfile a m
    (fun r => if r = regIdx a then jsOr (regs0 (regIdx a)) m else regs0 r) (regIdx a)
    ([] ++ t1)
  rw [h2]
  by_cases hr : r = regIdx a
  · simp [hr, jsOr_idem]
  · simp [hr]

theorem jsRestore_testBit (v m : Nat) (hv : v < 2 ^ 32) (hm : m < 2 ^ 32) (i : Nat) :
    (jsOr (jsAnd v (jsNot32 m)) m).testBit i =
      (m.testBit i || (v.testBit i && decide (i < 32))) := by
  have hnot : jsNot32 m = (2 ^ 32 - 1) ^^^ m := by
    unfold jsNot32
    rw [Nat.mod_eq_of_lt hm]
  have hnotlt : (2 ^ 32 - 1) ^^^ m < 2 ^ 32 :=
    Nat.xor_lt_two_pow (by norm_num) hm
  have hand : jsAnd v (jsNot32 m) = v &&& ((2 ^ 32 - 1) ^^^ m) := by
    unfold jsAnd
    rw [hnot, Nat.mod_eq_of_lt hv, Nat.mod_eq_of_lt hnotlt]
  have handlt : v &&& ((2 ^ 32 - 1) ^^^ m) < 2 ^ 32 :=
    lt_of_le_of_lt Nat.and_le_left hv
  have hor : jsOr (jsAnd v (jsNot32 m)) m = (v &&& ((2 ^ 32 - 1) ^^^ m)) ||| m := by
    unfold jsOr
    rw [hand, Nat.mod_eq_of_lt handlt, Nat.mod_eq_of_lt hm]
  rw [hor, Nat.testBit_or, Nat.testBit_and, Nat.testBit_xor, Nat.testBit_two_pow_sub_one]
  by_cases hi : i < 32
  · simp only [hi, decide_True]
    cases hmb : m.testBit i <;> cases hvb : v.testBit i <;> simp
  · simp only [hi, decide_False]
    have hmb : m.testBit i = false :=
      Nat.testBit_lt_two_pow (lt_of_lt_of_le hm (Nat.pow_le_pow_right (by norm_num) (by omega)))
    have hvb : v.testBit i = false :=
      Nat.testBit_lt_two_pow (lt_of_lt_of_le hv (Nat.pow_le_pow_right (by norm_num) (by omega)))
    simp [hmb, hvb]

/-- C8: running clearBitMask and then setBitMask with the same mask, against
a register file where reads return the last written value, leaves the
addressed register with all bits of the mask set and every bit outside the
mask equal to its value in the initial register value. -/
theorem clear_set_restore_claim (a m : Nat) (regs0 : Nat → Nat) (r0 : Nat)
    (hm : m < 2 ^ 32) (hv : regs0 (regIdx a) < 2 ^ 32) :
    (∀ i, m.testBit i = true →
      ((setBitMask regFileChip a m (clearBitMask regFileChip a m
        (regSt regs0 r0))).dev.regs (regIdx a)).testBit i = true) ∧
    (∀ i, m.testBit i = false →
      ((setBitMask regFileChip a m (clearBitMask regFileChip a m
        (regSt regs0 r0))).dev.regs (regIdx a)).testBit i = (regs0 (regIdx a)).testBit i) := by
  have hval : (setBitMask regFileChip a m (clearBitMask regFileChip a m
      (regSt regs0 r0))).dev.regs (regIdx a) = jsOr (jsAnd (regs0 (regIdx a)) (jsNot32 m)) m := by
    simp only [regSt]
    obtain ⟨t1, h1⟩ := clearBitMask_regfile a m regs0 r0 []
    rw [h1]
    obtain ⟨t2, h2⟩ := setBitMask_regfile a m
      (fun r => if r = regIdx a then jsAnd (regs0 (regIdx a)) (jsNot32 m) else regs0 r)
      (regIdx a) ([] ++ t1)
    rw [h2]
    simp
  rw [hval]
  constructor
  · intro i hmi
    rw [jsRestore_testBit _ _ hv hm i, hmi]
    rfl
  · intro i hmi
    rw [jsRestore_testBit _ _ hv hm i, hmi]
    by_cases hi : i < 32
    · simp [hi]
    · have hvb : (regs0 (regIdx a)).testBit i = false :=
        Nat.testBit_lt_two_pow (lt_of_lt_of_le hv (Nat.pow_le_pow_right (by norm_num) (by omega)))
      simp [hi, hvb]

/-- C1 witness: the concrete bytes 04 AA BB CC DD yield the string
04AABBCCDD. -/
theorem getID_uid_claim_w : (getID oracleChip (initSt respC1)).1 = "04AABBCCDD" := by
  have h := getID_uid_claim respC1 0x04 0xAA 0xBB 0xCC 0xDD
    (by decide) (by decide) (by decide) (by decide) (by decide)
    (by decide) (by decide) (by decide) (by decide) (by decide) (by decide) (by decide)
  rw [h.1]
  decide

/-- C2 witness: a run whose anticollision FIFO level read is 7 yields the
empty string. -/
theorem uid_total_claim_w : (anticollision oracleChip (initSt respC2)).1 = "" :=
  uid_total_claim.1 (initSt respC2) (by decide)

/-- C3 witness: a chip answering 0 to every read never signals presence. -/
theorem getID_noCard_claim_w :
    (getID oracleChip (initSt respC3)).1 = "" ∧
    getID oracleChip (initSt respC3) =
      ("", (requestCard oracleChip PICC_REQIDL (initSt respC3)).2) :=
  getID_noCard_claim respC3 (by decide)

/-- C4 witness: the poll characterization at a concrete chip whose
FIFOLevelReg read is 2. -/
theorem requestCard_poll_claim_w :
    ∃ k, 1 ≤ k ∧ k ≤ 25 ∧
      (requestCard oracleChip 0x26 (initSt respC4)).2.dev.cnt 0x88 = k ∧
      (∀ j, j + 1 < k → respC4 0x88 j % 256 &&& 0x30 = 0) ∧
      (k < 25 → respC4 0x88 (k - 1) % 256 &&& 0x30 ≠ 0) ∧
      (requestCard oracleChip 0x26 (initSt respC4)).2.dev.cnt 0x94 = 1 ∧
      ((requestCard oracleChip 0x26 (initSt respC4)).1 = 1 ↔ respC4 0x94 0 % 256 = 2) ∧
      ((requestCard oracleChip 0x26 (initSt respC4)).1 = 1 ∨
        (requestCard oracleChip 0x26 (initSt respC4)).1 = 0) :=
  requestCard_poll_claim 0x26 respC4

/-- C5 witness: a chip that clears the busy bit at the fourth CommandReg
poll lets resetModule return. -/
theorem resetModule_claim_w :
    ∃ fuel, (resetModule oracleChip fuel (initSt respC5)).isSome = true :=
  (resetModule_claim (initSt respC5)).2.1.mpr ⟨3, by decide⟩

/-- C8 witness: clearing and setting mask 3 on a register holding 0x55
restores the mask bits. -/
theorem clear_set_restore_claim_w :
    (∀ i, (3 : Nat).testBit i = true →
      ((setBitMask regFileChip 0x14 3 (clearBitMask regFileChip 0x14 3
        (regSt (fun _ => 0x55) 0))).dev.regs (regIdx 0x14)).testBit i = true) ∧
    (∀ i, (3 : Nat).testBit i = false →
      ((setBitMask regFileChip 0x14 3 (clearBitMask regFileChip 0x14 3
        (regSt (fun _ => 0x55) 0))).dev.regs (regIdx 0x14)).testBit i =
        ((fun _ : Nat => 0x55) (regIdx 0x14)).testBit i) :=
  clear_set_restore_claim 0x14 3 (fun _ => 0x55) 0 (by norm_num) (by norm_num)

/-- C9 witness: a chip whose ComIrq reads never set the mask bits but whose
FIFO level read is 2 still yields presence 1. -/
theorem requestCard_irq_claim_w :
    (requestCard oracleChip 0x26 (initSt respC9)).1 = 1 :=
  requestCard_irq_claim.2 0x26 (initSt respC9) (fun _ => by simp [initSt, respC9]) (by decide)

/-- C10 witness: an anticollision run with FIFO level 4 returns the empty
string and performs no FIFODataReg read. -/
theorem anticollision_reads_claim_w :
    (anticollision oracleChip (initSt respC10)).1 = "" ∧
    (anticollision oracleChip (initSt respC10)).2.dev.cnt 0x92 =
      (initSt respC10).dev.cnt 0x92 :=
  (anticollision_reads_claim (initSt respC10)).1 (by decide)
